import Mathlib

/-!
Verification of the scene/object registry and animation-loop driver of the
`portfolio-three` repository.

The core under study (`src/unnamed/part_000`, class `App`) is:

  * an ordered registry `this.objects` of `{name, mesh}` records,
    with `add(...objects)` (flattens nested input, pushes each record and
    attaches each mesh to the scene), `find(name)` (first loose-equality
    match, returning the mesh or `undefined`) and `findAll(name)`
    (filter by loose equality);
  * a `size` getter recomputing `{width, height, aspect}` from the live
    window dimensions on every access;
  * an animation-loop callback `animate` that renders, looks up the
    named objects "torus", "cube" and "mars", applies fixed rotation
    increments under presence guards, derives the camera position from
    the page scroll offset when all three are present, and unconditionally
    reschedules itself via `requestAnimationFrame`.

Meshes are opaque graphics-library handles; we model them as `Nat`
identifiers, and the scene graph as the ordered list of mesh handles that
have been attached via `scene.add`.  JavaScript numbers that matter to the
claims (rotation angles, scroll offset, viewport sizes) are modelled as
exact rationals, since every claim here is about control flow and exact
formulas, not floating-point rounding.
-/

/-- A JavaScript value usable as the `name` field of a registry entry:
a string, `null`, or `undefined` (the value read for a missing field). -/
inductive JName where
  | str : String → JName
  | null : JName
  | undefined : JName
deriving DecidableEq, Repr

/-- JavaScript loose equality `==` restricted to the values of `JName`:
two strings compare by content, `null` and `undefined` are loosely equal
to each other and to themselves, and neither is loosely equal to any
string.  This is the comparison used by `o.name == name` in `App.find`
and `App.findAll`. -/
def looseEq : JName → JName → Bool
  | JName.str a, JName.str b => a == b
  | JName.str _, JName.null => false
  | JName.str _, JName.undefined => false
  | JName.null, JName.str _ => false
  | JName.undefined, JName.str _ => false
  | _, _ => true

/-- A registry entry: `{ name, mesh }`.  The mesh is an opaque
graphics-library object, modelled by a `Nat` handle. -/
structure Renderable where
  name : JName
  mesh : Nat
deriving DecidableEq, Repr

/-- The state owned by the `App` class that the registry operations touch:
the ordered registry `this.objects` and the scene graph's ordered list of
attached mesh handles (each `this.scene.add(o.mesh)` call appends one). -/
structure AppState where
  objects : List Renderable
  scene : List Nat
deriving DecidableEq, Repr

/-- A possibly nested argument to `add(...objects)`: JavaScript allows the
variadic arguments to be renderables or arbitrarily nested arrays of them,
which `objects.flat(Infinity)` flattens. -/
inductive Batch where
  | leaf : Renderable → Batch
  | node : List Batch → Batch

mutual

/-- `flat(Infinity)` on a single (possibly nested) argument. -/
def Batch.flatten : Batch → List Renderable
  | Batch.leaf r => [r]
  | Batch.node bs => flattenList bs

/-- `flat(Infinity)` on the variadic argument list of `add`. -/
def flattenList : List Batch → List Renderable
  | [] => []
  | b :: bs => b.flatten ++ flattenList bs

end

mutual

/-- The number of leaf renderables in one (possibly nested) argument. -/
def Batch.leafCount : Batch → Nat
  | Batch.leaf _ => 1
  | Batch.node bs => leafCountList bs

/-- The number of leaf renderables in the variadic argument list. -/
def leafCountList : List Batch → Nat
  | [] => 0
  | b :: bs => b.leafCount + leafCountList bs

end

namespace App

/-- One iteration of the `forEach` body in `App.add`:
`this.objects.push(o); this.scene.add(o.mesh);`. -/
def pushOne (st : AppState) (o : Renderable) : AppState :=
  { objects := st.objects ++ [o], scene := st.scene ++ [o.mesh] }

/-- `App.add(...objects)`: flatten the nested input, then for each record
push it onto the registry and attach its mesh to the scene. -/
def add (st : AppState) (objects : List Batch) : AppState :=
  (flattenList objects).foldl pushOne st

/-- `App.find(name)`: `this.objects.find((o) => o.name == name)?.mesh` —
the mesh of the first entry loosely matching `name`, if any. -/
def find (st : AppState) (name : JName) : Option Nat :=
  (st.objects.find? (fun o => looseEq o.name name)).map Renderable.mesh

/-- `App.findAll(name)`: `this.objects.filter((o) => o.name == name)` —
all entries (not just meshes) loosely matching `name`, in order. -/
def findAll (st : AppState) (name : JName) : List Renderable :=
  st.objects.filter (fun o => looseEq o.name name)

end App

/-- The public registry interface: the only operations the class exposes
that touch the registry or the scene graph. -/
inductive Op where
  | add : List Batch → Op
  | find : JName → Op
  | findAll : JName → Op

/-- State transition of one public operation: `find` and `findAll` are
read-only (JavaScript `Array.prototype.find` / `filter` do not mutate),
only `add` changes the state. -/
def App.step (st : AppState) : Op → AppState
  | Op.add bs => App.add st bs
  | Op.find _ => st
  | Op.findAll _ => st

/-- The state after the constructor: `this.objects = []` and a fresh,
empty scene. -/
def App.initState : AppState := { objects := [], scene := [] }

-- ### The SceneDriver: `size` getter and the animation-loop callback

/-- The record returned by the `size` getter:
`{ width, height, aspect: width / height }`. -/
structure Size where
  width : ℚ
  height : ℚ
  aspect : ℚ
deriving DecidableEq, Repr

/-- The `size` getter.  It reads `window.innerWidth` and
`window.innerHeight` afresh on every access (nothing is cached on the
instance), so it is a pure function of the live window dimensions at the
moment of the access. -/
def App.size (innerWidth innerHeight : ℚ) : Size :=
  { width := innerWidth, height := innerHeight, aspect := innerWidth / innerHeight }

/-- A rotation (Euler angles) or position vector of a mesh or camera. -/
structure Vec3 where
  x : ℚ
  y : ℚ
  z : ℚ
deriving DecidableEq, Repr

/-- The mutable world visible to the animation-loop callback:
the `App` registry/scene state, the rotation of each mesh handle, the
camera position, the page scroll offset (`document.body
.getBoundingClientRect().top`, constant during one callback run), a count
of frames rendered, and a count of `requestAnimationFrame` calls
issued. -/
structure World where
  state : AppState
  rot : Nat → Vec3
  cameraPos : Vec3
  scrollTop : ℚ
  rendered : Nat
  scheduled : Nat

/-- Add the given increments to the x/y/z rotation of mesh handle `i`,
leaving every other mesh untouched: the model of
`m.rotation.x += dx; m.rotation.y += dy; m.rotation.z += dz`. -/
def bumpXYZ (r : Nat → Vec3) (i : Nat) (dx dy dz : ℚ) : Nat → Vec3 :=
  Function.update r i ⟨(r i).x + dx, (r i).y + dy, (r i).z + dz⟩

/-- The animation-loop callback `animate` of `App.#renderScene`:
render; look up "torus", "cube" and "mars"; if `torus` is truthy bump its
rotation by 0.01 on each axis; if all three are truthy bump `mars`'s y
rotation and `cube`'s y and z rotations by 0.01 and set the camera
position from the scroll offset (`top * -0.0002`, `top * -0.0002`,
`top * -0.01`); update the orbit controls (opaque, no modelled state);
finally call `requestAnimationFrame(animate)` unconditionally.  Every
mutation of a named object is guarded by a presence check, so a lookup
miss never faults — the model is a total function. -/
def animate (w : World) : World :=
  let w1 : World := { w with rendered := w.rendered + 1 }
  let torus := App.find w1.state (JName.str "torus")
  let cube := App.find w1.state (JName.str "cube")
  let mars := App.find w1.state (JName.str "mars")
  let w2 : World :=
    match torus with
    | some t => { w1 with rot := bumpXYZ w1.rot t (1/100) (1/100) (1/100) }
    | none => w1
  let w3 : World :=
    match torus, cube, mars with
    | some _, some c, some m =>
        let top := w2.scrollTop
        { w2 with
            rot := bumpXYZ (bumpXYZ w2.rot m 0 (1/100) 0) c 0 (1/100) (1/100),
            cameraPos := ⟨top * (-2/10000), top * (-2/10000), top * (-1/100)⟩ }
    | _, _, _ => w2
  { w3 with scheduled := w3.scheduled + 1 }

-- ### General lemmas about the registry operations

/-- Splitting characterisation of `List.find?`: it returns `some a`
exactly when the list splits as `pre ++ a :: suf` with `a` satisfying the
predicate and nothing in `pre` satisfying it. -/
theorem find?_eq_some_split {α : Type} (p : α → Bool) (l : List α) (a : α) :
    l.find? p = some a ↔
      p a = true ∧ ∃ pre suf, l = pre ++ a :: suf ∧ ∀ x ∈ pre, p x = false := by
  induction l with
  | nil => simp [List.find?]
  | cons hd tl ih =>
    by_cases hp : p hd = true
    · rw [List.find?_cons_of_pos _ hp]
      constructor
      · rintro h
        injection h with h
        subst h
        exact ⟨hp, [], tl, rfl, by simp⟩
      · rintro ⟨hpa, pre, suf, hsplit, hpre⟩
        match pre, hsplit with
        | [], hsplit =>
          simp only [List.nil_append, List.cons.injEq] at hsplit
          exact congrArg some hsplit.1
        | x :: pre', hsplit =>
          simp only [List.cons_append, List.cons.injEq] at hsplit
          have hx := hpre x (by simp)
          rw [hsplit.1, hx] at hp
          exact absurd hp (by simp)
    · rw [List.find?_cons_of_neg _ hp, ih]
      constructor
      · rintro ⟨hpa, pre, suf, hsplit, hpre⟩
        refine ⟨hpa, hd :: pre, suf, by simp [hsplit], ?_⟩
        intro x hx
        rcases List.mem_cons.mp hx with h | h
        · subst h
          exact Bool.eq_false_iff.mpr hp
        · exact hpre x h
      · rintro ⟨hpa, pre, suf, hsplit, hpre⟩
        match pre, hsplit with
        | [], hsplit =>
          simp only [List.nil_append, List.cons.injEq] at hsplit
          rw [hsplit.1] at hp
          exact absurd hpa hp
        | x :: pre', hsplit =>
          simp only [List.cons_append, List.cons.injEq] at hsplit
          exact ⟨hpa, pre', suf, hsplit.2, fun y hy => hpre y (by simp [hy])⟩

/-- The `forEach` loop of `App.add` appends the processed records to the
registry and their meshes to the scene, in order. -/
theorem foldl_pushOne (l : List Renderable) (st : AppState) :
    l.foldl App.pushOne st =
      { objects := st.objects ++ l, scene := st.scene ++ l.map Renderable.mesh } := by
  induction l generalizing st with
  | nil => cases st; simp
  | cons o l ih =>
    rw [List.foldl_cons, ih]
    simp [App.pushOne]

mutual

/-- Flattening one (possibly nested) argument yields exactly its leaves. -/
theorem Batch.flatten_length : (b : Batch) → b.flatten.length = b.leafCount
  | Batch.leaf _ => rfl
  | Batch.node bs => flattenList_length bs

/-- Flattening the variadic arguments yields exactly their leaves. -/
theorem flattenList_length : (bs : List Batch) → (flattenList bs).length = leafCountList bs
  | [] => rfl
  | b :: bs => by
    simp [flattenList, leafCountList, Batch.flatten_length b, flattenList_length bs]

end

/-- `find?` returns the head of the `filter` by the same predicate. -/
theorem find?_eq_head?_filter {α : Type} (p : α → Bool) (l : List α) :
    l.find? p = (l.filter p).head? := by
  induction l with
  | nil => rfl
  | cons hd tl ih =>
    by_cases hp : p hd = true
    · rw [List.find?_cons_of_pos _ hp, List.filter_cons_of_pos hp]
      rfl
    · rw [List.find?_cons_of_neg _ hp, List.filter_cons_of_neg (by simpa using hp), ih]

-- ### Concrete states used by witnesses and counterexamples

/-- The spec's scenario state: `{name:"torus", mesh:A}` then
`{name:"cube", mesh:B}` (with A = 1, B = 2). -/
def demoState : AppState :=
  { objects := [⟨JName.str "torus", 1⟩, ⟨JName.str "cube", 2⟩], scene := [1, 2] }

/-- A registry with duplicate "star" names around a "torus" entry. -/
def starState : AppState :=
  { objects := [⟨JName.str "torus", 0⟩, ⟨JName.str "star", 1⟩, ⟨JName.str "star", 2⟩],
    scene := [0, 1, 2] }

-- ### Claim theorems

/-- C1: for every registry state (reachable by any sequence of `add`
calls) and every name, `find(name)` returns `some m` exactly when the
registry splits as `pre ++ e :: suf` with `e` the earliest-inserted entry
whose name matches the argument (under the code's `==` comparison) and
`m` its mesh; and `find(name)` is absent exactly when no entry's name
matches the argument. -/
theorem find_first_match (st : AppState) (name : JName) :
    (∀ m, App.find st name = some m ↔
      ∃ pre e suf, st.objects = pre ++ e :: suf ∧ looseEq e.name name = true ∧
        e.mesh = m ∧ ∀ p ∈ pre, looseEq p.name name = false) ∧
    (App.find st name = none ↔ ∀ o ∈ st.objects, looseEq o.name name = false) := by
  constructor
  · intro m
    constructor
    · intro h
      rcases Option.map_eq_some'.mp h with ⟨e, he, hm⟩
      rcases (find?_eq_some_split _ _ _).mp he with ⟨hpe, pre, suf, hsplit, hpre⟩
      exact ⟨pre, e, suf, hsplit, hpe, hm, hpre⟩
    · rintro ⟨pre, e, suf, hsplit, hpe, hm, hpre⟩
      unfold App.find
      rw [(find?_eq_some_split _ st.objects e).mpr ⟨hpe, pre, suf, hsplit, hpre⟩]
      simpa using hm
  · unfold App.find
    rw [Option.map_eq_none', List.find?_eq_none]
    constructor
    · intro h o ho
      simpa using h o ho
    · intro h o ho
      simp [h o ho]

/-- Witness for C1: in the spec's scenario, `find("torus")` returns the
mesh of the first-added torus entry. -/
theorem find_first_match_witness :
    App.find demoState (JName.str "torus") = some 1 :=
  ((find_first_match demoState (JName.str "torus")).1 1).mpr
    ⟨[], ⟨JName.str "torus", 1⟩, [⟨JName.str "cube", 2⟩], rfl, by decide, rfl, by simp⟩

/-- C2: `findAll(name)` is a sublist of the registry (so it preserves
insertion order), contains exactly the entries — whole name/mesh records,
not bare meshes — whose name matches the argument, and its length equals
the number of matching entries in the registry. -/
theorem findAll_matches (st : AppState) (name : JName) :
    List.Sublist (App.findAll st name) st.objects ∧
    (∀ o ∈ App.findAll st name, looseEq o.name name = true) ∧
    (∀ o ∈ st.objects, looseEq o.name name = true → o ∈ App.findAll st name) ∧
    (App.findAll st name).length = st.objects.countP (fun o => looseEq o.name name) := by
  refine ⟨List.filter_sublist _, ?_, ?_, ?_⟩
  · intro o ho
    exact (List.mem_filter.mp ho).2
  · intro o ho h
    exact List.mem_filter.mpr ⟨ho, h⟩
  · exact (List.countP_eq_length_filter _ _).symm

/-- Witness for C2: with duplicate "star" entries, `findAll("star")`
contains each star entry and its length is the number of stars. -/
theorem findAll_matches_witness :
    (⟨JName.str "star", 1⟩ : Renderable) ∈ App.findAll starState (JName.str "star") ∧
    (App.findAll starState (JName.str "star")).length =
      starState.objects.countP (fun o => looseEq o.name (JName.str "star")) :=
  ⟨(findAll_matches starState (JName.str "star")).2.2.1 ⟨JName.str "star", 1⟩
      (by decide) (by decide),
   (findAll_matches starState (JName.str "star")).2.2.2⟩

/-- C3: `add` on any (possibly nested) batch appends exactly the
flattened leaf renderables, in order, after the existing registry
entries; the registry grows by exactly the number of leaves, and exactly
the corresponding meshes are attached to the scene, also in order. -/
theorem add_appends (st : AppState) (bs : List Batch) :
    (App.add st bs).objects = st.objects ++ flattenList bs ∧
    (App.add st bs).scene = st.scene ++ (flattenList bs).map Renderable.mesh ∧
    (App.add st bs).objects.length = st.objects.length + leafCountList bs ∧
    (App.add st bs).scene.length = st.scene.length + leafCountList bs := by
  unfold App.add
  rw [foldl_pushOne (flattenList bs) st]
  simp [flattenList_length bs]

/-- C6: the `size` getter is a pure function of the live window
dimensions read at the moment of the access (no caching), and the
`aspect` field of the returned record always equals its `width` field
divided by its `height` field, whatever the dimensions. -/
theorem size_live_ratio (w h : ℚ) :
    (App.size w h).width = w ∧ (App.size w h).height = h ∧
    (App.size w h).aspect = (App.size w h).width / (App.size w h).height :=
  ⟨rfl, rfl, rfl⟩

/-- C7: the registry is append-only: `find` and `findAll` leave the state
unchanged, `add` appends the flattened batch after the existing entries,
and under every public operation the old registry sequence is a prefix of
the new one — no entry is ever removed or replaced. -/
theorem registry_append_only (st : AppState) :
    (∀ n, App.step st (Op.find n) = st) ∧
    (∀ n, App.step st (Op.findAll n) = st) ∧
    (∀ bs, (App.step st (Op.add bs)).objects = st.objects ++ flattenList bs) ∧
    (∀ op, st.objects <+: (App.step st op).objects) := by
  have hadd : ∀ bs, (App.step st (Op.add bs)).objects = st.objects ++ flattenList bs := by
    intro bs
    show (App.add st bs).objects = _
    unfold App.add
    rw [foldl_pushOne (flattenList bs) st]
  refine ⟨fun _ => rfl, fun _ => rfl, hadd, ?_⟩
  intro op
  cases op with
  | add bs => exact ⟨flattenList bs, (hadd bs).symm⟩
  | find n => exact ⟨[], List.append_nil _⟩
  | findAll n => exact ⟨[], List.append_nil _⟩

/-- The lockstep invariant of the data model: the scene graph's attached
meshes are exactly the meshes of the registry entries, in the same
order. -/
def inSync (st : AppState) : Prop := st.scene = st.objects.map Renderable.mesh

/-- C4: the registry and the scene graph are kept in lockstep by the
single `add` operation: every public operation preserves the invariant
that the scene's attached meshes are exactly the registry entries'
meshes (each added renderable's mesh is attached to the one scene, once),
and every state reachable from the constructor state by public operations
satisfies it.  No operation mutates the scene graph without going through
`add`. -/
theorem registry_scene_lockstep :
    (∀ st op, inSync st → inSync (App.step st op)) ∧
    (∀ ops : List Op, inSync (ops.foldl App.step App.initState)) := by
  have hstep : ∀ st op, inSync st → inSync (App.step st op) := by
    intro st op h
    cases op with
    | add bs =>
      show inSync (App.add st bs)
      unfold App.add
      rw [foldl_pushOne (flattenList bs) st]
      unfold inSync at h ⊢
      simp only [List.map_append, h]
    | find n => exact h
    | findAll n => exact h
  refine ⟨hstep, ?_⟩
  have key : ∀ (ops : List Op) (st : AppState), inSync st → inSync (ops.foldl App.step st) := by
    intro ops
    induction ops with
    | nil => intro st h; exact h
    | cons op ops ih =>
      intro st h
      exact ih (App.step st op) (hstep st op h)
  intro ops
  exact key ops App.initState rfl

/-- Witness for C4: one `add` step from the spec's scenario state keeps
the scene's attached meshes in lockstep with the registry. -/
theorem registry_scene_lockstep_witness :
    inSync (App.step demoState (Op.add [Batch.leaf ⟨JName.str "mars", 3⟩])) :=
  registry_scene_lockstep.1 demoState (Op.add [Batch.leaf ⟨JName.str "mars", 3⟩]) rfl

/-- C8: the animation-loop callback calls `requestAnimationFrame` exactly
once per invocation, on every control path (whatever the lookups return),
and therefore after any number of frames the loop is still rescheduling
itself: it never reaches a state from which it stops. -/
theorem animate_always_reschedules (w : World) :
    (animate w).scheduled = w.scheduled + 1 ∧
    ∀ n : Nat, (animate^[n] w).scheduled = w.scheduled + n := by
  have hstep : ∀ v : World, (animate v).scheduled = v.scheduled + 1 := by
    intro v
    unfold animate
    cases h1 : App.find v.state (JName.str "torus") <;>
      cases h2 : App.find v.state (JName.str "cube") <;>
        cases h3 : App.find v.state (JName.str "mars") <;>
          simp [h1, h2, h3]
  refine ⟨hstep w, ?_⟩
  intro n
  induction n with
  | zero => simp
  | succ n ih =>
    rw [Function.iterate_succ_apply', hstep, ih, Nat.add_assoc]

/-- A world whose registry holds only a "cube" entry (mesh handle 0),
with all rotations zeroed. -/
def cubeOnlyWorld : World :=
  { state := { objects := [⟨JName.str "cube", 0⟩], scene := [0] },
    rot := fun _ => ⟨0, 0, 0⟩,
    cameraPos := ⟨0, 0, 0⟩,
    scrollTop := 0,
    rendered := 0,
    scheduled := 0 }

/-- Counterexample to C5 as stated: in `cubeOnlyWorld` the object "cube"
is present in the registry, yet one run of the animation callback leaves
its rotation unchanged — in particular its y rotation does not receive
the fixed 0.01 increment — because the cube/mars mutations are guarded by
the presence of all three named objects, not by the cube's own
presence. -/
theorem animate_cube_present_not_rotated :
    App.find cubeOnlyWorld.state (JName.str "cube") = some 0 ∧
    (animate cubeOnlyWorld).rot 0 = cubeOnlyWorld.rot 0 ∧
    ((animate cubeOnlyWorld).rot 0).y ≠ (cubeOnlyWorld.rot 0).y + 1 / 100 := by
  refine ⟨by decide, rfl, ?_⟩
  have h1 : ((animate cubeOnlyWorld).rot 0).y = 0 := rfl
  have h2 : (cubeOnlyWorld.rot 0).y = 0 := rfl
  rw [h1, h2]
  norm_num

/-- C5 (amended): in every invocation of the animation-loop callback,
"torus", when present, receives its fixed rotation increment (0.01 on
each axis); "cube" and "mars" receive their fixed increments (cube: y and
z; mars: y) exactly when all three named objects are present; the camera
position is derived from the page scroll offset exactly when all three
are present; and a lookup miss only ever skips the guarded mutations —
the callback is a total function, it never faults. -/
theorem animate_guarded (w : World) :
    (App.find w.state (JName.str "torus") = none →
      (animate w).rot = w.rot ∧ (animate w).cameraPos = w.cameraPos) ∧
    (∀ t, App.find w.state (JName.str "torus") = some t →
      (App.find w.state (JName.str "cube") = none ∨
        App.find w.state (JName.str "mars") = none) →
      (animate w).rot = bumpXYZ w.rot t (1 / 100) (1 / 100) (1 / 100) ∧
      (animate w).cameraPos = w.cameraPos) ∧
    (∀ t c m, App.find w.state (JName.str "torus") = some t →
      App.find w.state (JName.str "cube") = some c →
      App.find w.state (JName.str "mars") = some m →
      (animate w).rot =
        bumpXYZ (bumpXYZ (bumpXYZ w.rot t (1 / 100) (1 / 100) (1 / 100)) m 0 (1 / 100) 0)
          c 0 (1 / 100) (1 / 100) ∧
      (animate w).cameraPos =
        ⟨w.scrollTop * (-2 / 10000), w.scrollTop * (-2 / 10000),
          w.scrollTop * (-1 / 100)⟩) := by
  refine ⟨?_, ?_, ?_⟩
  · intro ht
    constructor <;> · unfold animate; simp [ht]
  · intro t ht hcm
    rcases hcm with hc | hm
    · cases hm : App.find w.state (JName.str "mars") <;>
        constructor <;> · unfold animate; simp [ht, hc, hm]
    · cases hc : App.find w.state (JName.str "cube") <;>
        constructor <;> · unfold animate; simp [ht, hc, hm]
  · intro t c m ht hc hm
    constructor <;> · unfold animate; simp [ht, hc, hm]

/-- A world whose registry holds "torus" (handle 0), "cube" (handle 1)
and "mars" (handle 2), scrolled to offset -100. -/
def fullWorld : World :=
  { state := { objects := [⟨JName.str "torus", 0⟩, ⟨JName.str "cube", 1⟩,
                 ⟨JName.str "mars", 2⟩],
               scene := [0, 1, 2] },
    rot := fun _ => ⟨0, 0, 0⟩,
    cameraPos := ⟨0, 0, 0⟩,
    scrollTop := -100,
    rendered := 0,
    scheduled := 0 }

/-- Witness for C5 (amended): with all three named objects present, one
callback run applies all the guarded rotation increments and derives the
camera position from the scroll offset. -/
theorem animate_guarded_witness :
    (animate fullWorld).rot =
      bumpXYZ (bumpXYZ (bumpXYZ fullWorld.rot 0 (1 / 100) (1 / 100) (1 / 100)) 2 0 (1 / 100) 0)
        1 0 (1 / 100) (1 / 100) ∧
    (animate fullWorld).cameraPos =
      ⟨fullWorld.scrollTop * (-2 / 10000), fullWorld.scrollTop * (-2 / 10000),
        fullWorld.scrollTop * (-1 / 100)⟩ :=
  (animate_guarded fullWorld).2.2 0 1 2 (by decide) (by decide) (by decide)

/-- C9: coherence of the two lookups: `find(name)` is absent exactly when
`findAll(name)` is empty, and when `findAll(name)` is non-empty,
`find(name)` returns the mesh of its first entry. -/
theorem find_findAll_coherence (st : AppState) (name : JName) :
    (App.find st name = none ↔ App.findAll st name = []) ∧
    (∀ e es, App.findAll st name = e :: es → App.find st name = some e.mesh) := by
  have hkey : App.find st name =
      (App.findAll st name).head?.map Renderable.mesh := by
    unfold App.find App.findAll
    rw [find?_eq_head?_filter]
  constructor
  · rw [hkey]
    rw [Option.map_eq_none']
    cases h : App.findAll st name <;> simp [h]
  · intro e es h
    rw [hkey, h]
    rfl

/-- Witness for C9: with duplicate "star" entries, `findAll("star")` is
non-empty and `find("star")` returns the mesh of its first entry. -/
theorem find_findAll_coherence_witness :
    App.find starState (JName.str "star") = some 1 :=
  (find_findAll_coherence starState (JName.str "star")).2
    ⟨JName.str "star", 1⟩ [⟨JName.str "star", 2⟩] (by decide)

/-- A name is loosely equal to `undefined` exactly when it is `undefined`
or `null` (JavaScript `==` identifies the two nullish values). -/
theorem looseEq_undefined_iff (n : JName) :
    looseEq n JName.undefined = true ↔ (n = JName.undefined ∨ n = JName.null) := by
  cases n <;> simp [looseEq]

/-- Matching against `undefined` and against `null` is the same
predicate under loose equality. -/
theorem looseEq_undefined_eq_null :
    (fun o : Renderable => looseEq o.name JName.undefined) =
      (fun o : Renderable => looseEq o.name JName.null) := by
  funext o
  cases o.name <;> rfl

/-- A registry whose first entry was added with an explicit `name: null`
(mesh 7) and whose second entry was added without a name field
(mesh 8). -/
def nullThenUnnamed : AppState :=
  { objects := [⟨JName.null, 7⟩, ⟨JName.undefined, 8⟩], scene := [7, 8] }

/-- Counterexample to C10 as stated: `nullThenUnnamed` contains exactly
one renderable added without a name field, the one with mesh 8, yet both
`find(undefined)` and `find(null)` return mesh 7 — the earlier entry
whose name is the distinct value `null` — because loose equality also
identifies `null` with `undefined`; so the result is not the mesh of the
earliest entry lacking a name field. -/
theorem find_undefined_counterexample :
    nullThenUnnamed.objects.filter (fun o => o.name == JName.undefined) =
      [⟨JName.undefined, 8⟩] ∧
    App.find nullThenUnnamed JName.undefined = some 7 ∧
    App.find nullThenUnnamed JName.null = some 7 ∧
    (7 : Nat) ≠ 8 := by
  refine ⟨by decide, by decide, by decide, by decide⟩

/-- C10 (amended): name matching uses loose equality, so lookups do not
distinguish a missing name from a null one: whenever the registry
contains at least one entry whose name is `undefined` (added without a
name field) or `null`, `find(undefined)` and `find(null)` both return
the mesh of the earliest entry whose name is `undefined` or `null` —
never an absent value. -/
theorem find_nullish_first (st : AppState)
    (h : ∃ o ∈ st.objects, o.name = JName.undefined ∨ o.name = JName.null) :
    ∃ pre e suf, st.objects = pre ++ e :: suf ∧
      (e.name = JName.undefined ∨ e.name = JName.null) ∧
      (∀ p ∈ pre, p.name ≠ JName.undefined ∧ p.name ≠ JName.null) ∧
      App.find st JName.undefined = some e.mesh ∧
      App.find st JName.null = some e.mesh := by
  obtain ⟨o, ho, hname⟩ := h
  have hsome : (st.objects.find? (fun o => looseEq o.name JName.undefined)).isSome := by
    rw [List.find?_isSome]
    exact ⟨o, ho, (looseEq_undefined_iff o.name).mpr hname⟩
  obtain ⟨e, he⟩ := Option.isSome_iff_exists.mp hsome
  obtain ⟨hpe, pre, suf, hsplit, hpre⟩ := (find?_eq_some_split _ _ _).mp he
  refine ⟨pre, e, suf, hsplit, (looseEq_undefined_iff e.name).mp hpe, ?_, ?_, ?_⟩
  · intro p hp
    have hfalse := hpre p hp
    refine ⟨fun hc => ?_, fun hc => ?_⟩ <;> simp [hc, looseEq] at hfalse
  · unfold App.find
    rw [he]
    rfl
  · unfold App.find
    rw [← looseEq_undefined_eq_null, he]
    rfl

/-- Witness for C10 (amended): in the concrete registry `nullThenUnnamed`
the earliest nullish-named entry is found by both `find(undefined)` and
`find(null)`. -/
theorem find_nullish_first_witness :
    ∃ pre e suf, nullThenUnnamed.objects = pre ++ e :: suf ∧
      (e.name = JName.undefined ∨ e.name = JName.null) ∧
      (∀ p ∈ pre, p.name ≠ JName.undefined ∧ p.name ≠ JName.null) ∧
      App.find nullThenUnnamed JName.undefined = some e.mesh ∧
      App.find nullThenUnnamed JName.null = some e.mesh :=
  find_nullish_first nullThenUnnamed ⟨⟨JName.null, 7⟩, by decide, Or.inr rfl⟩
